import Mathlib

/-!
Shallow embedding of the silo inventory backend (src/backend/app.py).

The backend is a Flask app over a SQLAlchemy store with two tables,
silos and operations.  We model the database as an explicit state value
and each API handler as a pure function from the state (plus the parsed
request) to either an error or an updated state.  Handlers in the source
return early (and thus never commit) on every error path, so an error
result leaves the state unchanged; a successful handler commits the
balance change and the appended operation record in one commit.

Faithfulness notes:
* cereals are stored as strings; ALLOWED_CEREALES is the set checked by
  the cargar handler (app.py line 64);
* Python truthiness of the optional request field cereal and of the
  nullable column s.cereal is modelled explicitly (None and the empty
  string are falsy);
* primary keys are assigned 1, 2, ... as SQLAlchemy does;
* created_at timestamps are modelled by a logical clock that advances at
  each commit;
* the resumen handler evaluates, for each operation row, the expression
  db.query(Silo).get(o.silo_id).balance_kg when o.silo_id is truthy
  (app.py line 212); if the silo row is gone that expression raises
  AttributeError, which aborts the whole request - we model this with
  Except, an error meaning the request raises.
-/

/-- Allowed cereal values, from ALLOWED_CEREALES in app.py (line 64).
The spec names them in English: Soja = Soy, Maiz = Corn, Trigo = Wheat,
Girasol = Sunflower. -/
def ALLOWED_CEREALES : List String := ["Soja", "Maiz", "Trigo", "Girasol"]

/-- A row of the silos table (class Silo, app.py lines 31-43). -/
structure Silo where
  id : Nat
  name : String
  cereal : Option String
  balance_kg : Int
  created_at : Nat
deriving Repr, DecidableEq

/-- A row of the operations table (class Operation, app.py lines 45-53). -/
structure Operation where
  id : Nat
  silo_id : Nat
  type : String
  amount : Int
  created_at : Nat
deriving Repr, DecidableEq

/-- The whole database state: both tables plus the autoincrement counters
and the logical clock supplying created_at values. -/
structure DB where
  silos : List Silo
  ops : List Operation
  nextSiloId : Nat
  nextOpId : Nat
  clock : Nat
deriving Repr, DecidableEq

/-- The error taxonomy of the spec (section 7).  Each constructor is one
distinct client-facing error message of app.py. -/
inductive Err where
  | InvalidInput
  | NotFound
  | DuplicateName
  | CerealMismatch
  | InsufficientStock
deriving Repr, DecidableEq

/-- Python truthiness of an optional string request field or nullable
string column: None and the empty string are falsy. -/
def pyTruthy : Option String → Bool
  | none => false
  | some s => s ≠ ""

/-- Python str.strip(): drop whitespace from both ends of the string
(used on the name field by create_silo and rename_silo). -/
def pyStrip (s : String) : String :=
  ⟨((s.data.dropWhile Char.isWhitespace).reverse.dropWhile Char.isWhitespace).reverse⟩

/-- Row lookup by primary key: db.query(Silo).get(silo_id). -/
def findSilo (db : DB) (silo_id : Nat) : Option Silo :=
  db.silos.find? (fun s => s.id = silo_id)

/-- Replace the silo row with the given id (the ORM mutates the row in
place; the list order is preserved). -/
def updateSilo (l : List Silo) (silo_id : Nat) (s2 : Silo) : List Silo :=
  l.map (fun t => if t.id = silo_id then s2 else t)

/-- True when some silo row already has this exact (case-sensitive) name;
the unique constraint on silos.name raises IntegrityError at commit in
this case (app.py lines 34, 106, 128). -/
def nameTaken (db : DB) (name : String) : Bool :=
  db.silos.any (fun s => s.name = name)

/-- POST /api/silos (create_silo, app.py lines 94-110): trim the name,
reject an empty name, insert a fresh row with zero balance and no cereal;
a unique-name violation rolls back and reports DuplicateName. -/
def create_silo (db : DB) (rawName : String) : Except Err DB :=
  let name := pyStrip rawName
  if name = "" then .error .InvalidInput
  else if nameTaken db name then .error .DuplicateName
  else
    let s : Silo :=
      { id := db.nextSiloId, name := name, cereal := none,
        balance_kg := 0, created_at := db.clock }
    .ok { db with silos := db.silos ++ [s],
                  nextSiloId := db.nextSiloId + 1,
                  clock := db.clock + 1 }

/-- PATCH /api/silos/id (rename_silo, app.py lines 112-132): trim the new
name, reject an empty name, 404 when the row is absent, then set the name;
a unique-name collision with another row rolls back as DuplicateName. -/
def rename_silo (db : DB) (silo_id : Nat) (rawName : String) : Except Err DB :=
  let newName := pyStrip rawName
  if newName = "" then .error .InvalidInput
  else
    match findSilo db silo_id with
    | none => .error .NotFound
    | some s =>
      if ∃ t ∈ db.silos, t.name = newName ∧ t.id ≠ s.id then
        .error .DuplicateName
      else
        .ok { db with silos := updateSilo db.silos silo_id { s with name := newName },
                      clock := db.clock + 1 }

/-- DELETE /api/silos/id (delete_silo, app.py lines 134-145): 404 when the
row is absent, otherwise delete the silo; the relationship cascade
(app.py line 39) deletes all of its operation rows with it. -/
def delete_silo (db : DB) (silo_id : Nat) : Except Err DB :=
  match findSilo db silo_id with
  | none => .error .NotFound
  | some _ =>
    .ok { db with silos := db.silos.filter (fun s => s.id ≠ silo_id),
                  ops := db.ops.filter (fun o => o.silo_id ≠ silo_id),
                  clock := db.clock + 1 }

/-- POST /api/silos/id/cargar (cargar, app.py lines 147-174), the load
operation, with the checks in source order:
1. amount must be positive (before the row lookup);
2. 404 when the row is absent;
3. when the silo is empty and its cereal column is NULL, the request must
   carry a truthy cereal belonging to ALLOWED_CEREALES, which is then
   assigned to the row;
4. when the (possibly just assigned) cereal column is truthy and the
   request cereal is truthy and differs, the load is rejected;
5. otherwise the balance grows by amount and one CARGA operation row is
   added, committed together. -/
def cargar (db : DB) (silo_id : Nat) (amount : Int) (cereal : Option String) :
    Except Err DB :=
  if amount ≤ 0 then .error .InvalidInput
  else
    match findSilo db silo_id with
    | none => .error .NotFound
    | some s =>
      let step1 : Except Err Silo :=
        if s.balance_kg = 0 ∧ s.cereal = none then
          if ¬ pyTruthy cereal ∨ cereal.getD "" ∉ ALLOWED_CEREALES then
            .error .InvalidInput
          else .ok { s with cereal := cereal }
        else .ok s
      match step1 with
      | .error e => .error e
      | .ok s1 =>
        if pyTruthy s1.cereal ∧ pyTruthy cereal ∧ cereal ≠ s1.cereal then
          .error .CerealMismatch
        else
          let s2 := { s1 with balance_kg := s1.balance_kg + amount }
          let op : Operation :=
            { id := db.nextOpId, silo_id := s2.id, type := "CARGA",
              amount := amount, created_at := db.clock }
          .ok { db with silos := updateSilo db.silos silo_id s2,
                        ops := db.ops ++ [op],
                        nextOpId := db.nextOpId + 1,
                        clock := db.clock + 1 }

/-- POST /api/silos/id/descargar (descargar, app.py lines 176-196), the
unload operation: amount must be positive (before the row lookup), the row
must exist, and the resulting balance may not go negative; on success the
balance shrinks by amount and one DESCARGA operation row is added,
committed together. -/
def descargar (db : DB) (silo_id : Nat) (amount : Int) : Except Err DB :=
  if amount ≤ 0 then .error .InvalidInput
  else
    match findSilo db silo_id with
    | none => .error .NotFound
    | some s =>
      if s.balance_kg - amount < 0 then .error .InsufficientStock
      else
        let s2 := { s with balance_kg := s.balance_kg - amount }
        let op : Operation :=
          { id := db.nextOpId, silo_id := s2.id, type := "DESCARGA",
            amount := amount, created_at := db.clock }
        .ok { db with silos := updateSilo db.silos silo_id s2,
                      ops := db.ops ++ [op],
                      nextOpId := db.nextOpId + 1,
                      clock := db.clock + 1 }

/-- One serialized row of GET /api/resumen (app.py lines 204-213). -/
structure SummaryEntry where
  id : Nat
  silo_id : Nat
  silo_name : Option String
  type : String
  amount : Int
  created_at : Nat
  balance_kg_post : Option Int
deriving Repr, DecidableEq

/-- The ORDER BY created_at DESC, id DESC relation used by resumen
(app.py line 202). -/
def opAfter (a b : Operation) : Prop :=
  b.created_at < a.created_at ∨ (a.created_at = b.created_at ∧ b.id ≤ a.id)

instance : DecidableRel opAfter := fun a b =>
  inferInstanceAs (Decidable (b.created_at < a.created_at ∨
    (a.created_at = b.created_at ∧ b.id ≤ a.id)))

instance : IsTotal Operation opAfter where
  total a b := by
    rcases Nat.lt_trichotomy a.created_at b.created_at with h | h | h
    · exact Or.inr (Or.inl h)
    · rcases Nat.le_total a.id b.id with h2 | h2
      · exact Or.inr (Or.inr ⟨h.symm, h2⟩)
      · exact Or.inl (Or.inr ⟨h, h2⟩)
    · exact Or.inl (Or.inl h)

instance : IsTrans Operation opAfter where
  trans a b c hab hbc := by
    rcases hab with h1 | ⟨e1, l1⟩
    · rcases hbc with h2 | ⟨e2, l2⟩
      · exact Or.inl (h2.trans h1)
      · exact Or.inl (e2 ▸ h1)
    · rcases hbc with h2 | ⟨e2, l2⟩
      · exact Or.inl (e1 ▸ h2)
      · exact Or.inr ⟨e1.trans e2, l2.trans l1⟩

/-- Serialization of one operation row inside resumen's loop
(app.py lines 204-213).  silo_name is defensively None when the silo row
is gone; balance_kg_post evaluates Silo.get(o.silo_id).balance_kg whenever
o.silo_id is truthy (nonzero), which raises AttributeError (modelled as
.error) when that silo row is gone. -/
def resumenEntry (db : DB) (o : Operation) : Except Unit SummaryEntry :=
  let siloName := (findSilo db o.silo_id).map (fun s => s.name)
  let post : Except Unit (Option Int) :=
    if o.silo_id ≠ 0 then
      match findSilo db o.silo_id with
      | none => .error ()
      | some s => .ok (some s.balance_kg)
    else .ok none
  match post with
  | .error e => .error e
  | .ok p =>
    .ok { id := o.id, silo_id := o.silo_id, silo_name := siloName,
          type := o.type, amount := o.amount, created_at := o.created_at,
          balance_kg_post := p }

/-- resumen's loop over the sorted operation rows; the first raising row
aborts the whole request. -/
def buildEntries (db : DB) : List Operation → Except Unit (List SummaryEntry)
  | [] => .ok []
  | o :: os =>
    match resumenEntry db o with
    | .error e => .error e
    | .ok en =>
      match buildEntries db os with
      | .error e => .error e
      | .ok ens => .ok (en :: ens)

/-- GET /api/resumen (resumen, app.py lines 198-216): all operation rows
ordered by created_at descending then id descending, each serialized with
the owning silo's current name and current balance. -/
def resumen (db : DB) : Except Unit (List SummaryEntry) :=
  buildEntries db (db.ops.insertionSort opAfter)

/-- A parsed client request, one constructor per mutating endpoint. -/
inductive Req where
  | create (name : String)
  | rename (silo_id : Nat) (name : String)
  | delete (silo_id : Nat)
  | load (silo_id : Nat) (amount : Int) (cereal : Option String)
  | unload (silo_id : Nat) (amount : Int)
deriving Repr, DecidableEq

/-- Apply one request to the database; a failed request rolls back and
leaves the state unchanged (every error path in app.py returns before
commit). -/
def step (db : DB) : Req → DB
  | .create n => ((create_silo db n).toOption).getD db
  | .rename i n => ((rename_silo db i n).toOption).getD db
  | .delete i => ((delete_silo db i).toOption).getD db
  | .load i a c => ((cargar db i a c).toOption).getD db
  | .unload i a => ((descargar db i a).toOption).getD db

/-- The empty database created by Base.metadata.create_all: no rows,
autoincrement counters at 1. -/
def DB.empty : DB :=
  { silos := [], ops := [], nextSiloId := 1, nextOpId := 1, clock := 0 }

/-- Run a whole request sequence from the empty database. -/
def run (rs : List Req) : DB :=
  rs.foldl step DB.empty

/-- The pure serialization of an operation row used to describe resumen's
output on well-formed states: the owning silo's current name and current
balance, straight from the silos table. -/
def entryOf (db : DB) (o : Operation) : SummaryEntry :=
  { id := o.id, silo_id := o.silo_id,
    silo_name := (findSilo db o.silo_id).map (fun s => s.name),
    type := o.type, amount := o.amount, created_at := o.created_at,
    balance_kg_post := (findSilo db o.silo_id).map (fun s => s.balance_kg) }

/-- The ordering that the summary rows are claimed to satisfy: created_at
descending, ties broken by id descending. -/
def entryAfter (a b : SummaryEntry) : Prop :=
  b.created_at < a.created_at ∨ (a.created_at = b.created_at ∧ b.id ≤ a.id)

/-- The structural invariants every database state reachable through the
API satisfies. -/
structure WF (db : DB) : Prop where
  nextSiloId_pos : 0 < db.nextSiloId
  silo_id_ne_zero : ∀ s ∈ db.silos, s.id ≠ 0
  balance_nonneg : ∀ s ∈ db.silos, 0 ≤ s.balance_kg
  cereal_allowed : ∀ s ∈ db.silos, ∀ c, s.cereal = some c → c ∈ ALLOWED_CEREALES
  stocked_locked : ∀ s ∈ db.silos, 0 < s.balance_kg → s.cereal ≠ none
  ops_ref : ∀ o ∈ db.ops, ∃ s ∈ db.silos, s.id = o.silo_id

deriving instance DecidableEq for Except

/-- A corrupted store used to examine resumen defensiveness: one operation
row whose silo row is gone (cannot arise through the API because delete
cascades, but the spec demands defensive handling of it). -/
def danglingDB : DB :=
  { silos := [],
    ops := [{ id := 1, silo_id := 1, type := "CARGA", amount := 100, created_at := 0 }],
    nextSiloId := 2, nextOpId := 2, clock := 1 }

theorem findSilo_id {db : DB} {i : Nat} {s : Silo} (h : findSilo db i = some s) :
    s.id = i := by
  have := List.find?_some h
  simpa using this

theorem findSilo_mem {db : DB} {i : Nat} {s : Silo} (h : findSilo db i = some s) :
    s ∈ db.silos :=
  List.mem_of_find?_eq_some h

theorem findSilo_isSome_of_mem {db : DB} {i : Nat} {s : Silo}
    (hm : s ∈ db.silos) (hi : s.id = i) : (findSilo db i).isSome := by
  rw [findSilo, List.find?_isSome]
  exact ⟨s, hm, by simpa using hi⟩

theorem mem_updateSilo {l : List Silo} {i : Nat} {s2 t : Silo}
    (h : t ∈ updateSilo l i s2) : t = s2 ∨ t ∈ l := by
  rcases List.mem_map.1 h with ⟨x, hx, hfx⟩
  by_cases hxi : x.id = i
  · left; simp [hxi] at hfx; exact hfx.symm
  · right; simp [hxi] at hfx; exact hfx ▸ hx

theorem updateSilo_exists_id {l : List Silo} {i : Nat} {s2 : Silo}
    (h2 : s2.id = i) {j : Nat} (h : ∃ s ∈ l, s.id = j) :
    ∃ s ∈ updateSilo l i s2, s.id = j := by
  rcases h with ⟨s, hm, hj⟩
  by_cases hsi : s.id = i
  · exact ⟨s2, List.mem_map.2 ⟨s, hm, by simp [hsi]⟩, by rw [h2, ← hsi, hj]⟩
  · exact ⟨s, List.mem_map.2 ⟨s, hm, by simp [hsi]⟩, hj⟩

theorem updateSilo_cons_pos {t : Silo} {l : List Silo} {i : Nat} {s2 : Silo}
    (hti : t.id = i) : updateSilo (t :: l) i s2 = s2 :: updateSilo l i s2 := by
  simp [updateSilo, hti]

theorem updateSilo_cons_neg {t : Silo} {l : List Silo} {i : Nat} {s2 : Silo}
    (hti : ¬ t.id = i) : updateSilo (t :: l) i s2 = t :: updateSilo l i s2 := by
  simp [updateSilo, hti]

theorem find_updateSilo_self {l : List Silo} {i : Nat} {s2 : Silo}
    (h2 : s2.id = i) (h : (l.find? (fun s => s.id = i)).isSome) :
    (updateSilo l i s2).find? (fun s => s.id = i) = some s2 := by
  induction l with
  | nil => simp [List.find?] at h
  | cons t l ih =>
    by_cases hti : t.id = i
    · rw [updateSilo_cons_pos hti, List.find?_cons_of_pos _ (by simp [h2])]
    · rw [updateSilo_cons_neg hti, List.find?_cons_of_neg _ (by simp [hti])]
      rw [List.find?_cons_of_neg _ (by simp [hti])] at h
      exact ih h

theorem find_updateSilo_ne {l : List Silo} {i j : Nat} {s2 : Silo}
    (h2 : s2.id = i) (hne : j ≠ i) :
    (updateSilo l i s2).find? (fun s => s.id = j) = l.find? (fun s => s.id = j) := by
  induction l with
  | nil => simp [updateSilo]
  | cons t l ih =>
    by_cases hti : t.id = i
    · have hsj : ¬ s2.id = j := by rw [h2]; exact fun hh => hne hh.symm
      have htj : ¬ t.id = j := by rw [hti]; exact fun hh => hne hh.symm
      rw [updateSilo_cons_pos hti, List.find?_cons_of_neg _ (by simp [hsj]),
        List.find?_cons_of_neg _ (by simp [htj]), ih]
    · by_cases htj : t.id = j
      · rw [updateSilo_cons_neg hti, List.find?_cons_of_pos _ (by simp [htj]),
          List.find?_cons_of_pos _ (by simp [htj])]
      · rw [updateSilo_cons_neg hti, List.find?_cons_of_neg _ (by simp [htj]),
          List.find?_cons_of_neg _ (by simp [htj]), ih]

theorem create_ok {db : DB} {n : String} {db2 : DB}
    (h : create_silo db n = .ok db2) :
    pyStrip n ≠ "" ∧ nameTaken db (pyStrip n) = false ∧
    db2 = { db with
      silos := db.silos ++ [{ id := db.nextSiloId, name := pyStrip n, cereal := none,
                              balance_kg := 0, created_at := db.clock }],
      nextSiloId := db.nextSiloId + 1, clock := db.clock + 1 } := by
  unfold create_silo at h
  dsimp only [] at h
  split at h
  · cases h
  · split at h
    · cases h
    · refine ⟨by assumption, by simpa using (by assumption : ¬ nameTaken db (pyStrip n) = true), ?_⟩
      cases h
      rfl

theorem descargar_ok {db : DB} {i : Nat} {amount : Int} {db2 : DB}
    (h : descargar db i amount = .ok db2) :
    ∃ s : Silo, 0 < amount ∧ findSilo db i = some s ∧ amount ≤ s.balance_kg ∧
      db2 = { db with
        silos := updateSilo db.silos i { s with balance_kg := s.balance_kg - amount },
        ops := db.ops ++ [{ id := db.nextOpId, silo_id := s.id, type := "DESCARGA",
                            amount := amount, created_at := db.clock }],
        nextOpId := db.nextOpId + 1, clock := db.clock + 1 } := by
  unfold descargar at h
  split at h
  · cases h
  · split at h
    · cases h
    · rename_i s hfind
      split at h
      · cases h
      · rename_i hstock
        refine ⟨s, by omega, hfind, by omega, ?_⟩
        cases h
        rfl

theorem cargar_ok {db : DB} {i : Nat} {amount : Int} {cereal : Option String} {db2 : DB}
    (hc : cargar db i amount cereal = .ok db2) :
    ∃ s s1 : Silo, 0 < amount ∧ findSilo db i = some s ∧
      ((¬ (s.balance_kg = 0 ∧ s.cereal = none) ∧ s1 = s) ∨
       (s.balance_kg = 0 ∧ s.cereal = none ∧ pyTruthy cereal = true ∧
        cereal.getD "" ∈ ALLOWED_CEREALES ∧ s1 = { s with cereal := cereal })) ∧
      ¬ (pyTruthy s1.cereal = true ∧ pyTruthy cereal = true ∧ cereal ≠ s1.cereal) ∧
      db2 = { db with
        silos := updateSilo db.silos i { s1 with balance_kg := s1.balance_kg + amount },
        ops := db.ops ++ [{ id := db.nextOpId, silo_id := s1.id, type := "CARGA",
                            amount := amount, created_at := db.clock }],
        nextOpId := db.nextOpId + 1, clock := db.clock + 1 } := by
  unfold cargar at hc
  dsimp only [] at hc
  split at hc
  · cases hc
  · split at hc
    · cases hc
    · rename_i ha s hfind
      split at hc
      · cases hc
      · rename_i s1 heq
        split at hc
        · cases hc
        · rename_i hmis
          cases hc
          refine ⟨s, s1, by omega, hfind, ?_, hmis, rfl⟩
          split at heq
          · rename_i hfresh
            split at heq
            · cases heq
            · rename_i hbad
              cases heq
              refine Or.inr ⟨hfresh.1, hfresh.2, ?_, ?_, rfl⟩
              · by_contra hh
                exact hbad (Or.inl (by simpa using hh))
              · by_contra hh
                exact hbad (Or.inr hh)
          · rename_i hfresh
            cases heq
            exact Or.inl ⟨hfresh, rfl⟩

theorem rename_ok {db : DB} {i : Nat} {n : String} {db2 : DB}
    (h : rename_silo db i n = .ok db2) :
    ∃ s, pyStrip n ≠ "" ∧ findSilo db i = some s ∧
      (¬ ∃ t ∈ db.silos, t.name = pyStrip n ∧ t.id ≠ s.id) ∧
      db2 = { db with silos := updateSilo db.silos i { s with name := pyStrip n },
                      clock := db.clock + 1 } := by
  unfold rename_silo at h
  dsimp only [] at h
  split at h
  · cases h
  · rename_i hne
    split at h
    · cases h
    · rename_i s hfind
      split at h
      · cases h
      · rename_i hdup
        cases h
        exact ⟨s, hne, hfind, hdup, rfl⟩

theorem delete_ok {db : DB} {i : Nat} {db2 : DB}
    (h : delete_silo db i = .ok db2) :
    ∃ s, findSilo db i = some s ∧
      db2 = { db with silos := db.silos.filter (fun s => s.id ≠ i),
                      ops := db.ops.filter (fun o => o.silo_id ≠ i),
                      clock := db.clock + 1 } := by
  unfold delete_silo at h
  split at h
  · cases h
  · rename_i s hfind
    cases h
    exact ⟨s, hfind, rfl⟩

theorem WF_empty : WF DB.empty := by
  constructor <;> simp [DB.empty]

theorem create_WF {db : DB} {n : String} {db2 : DB} (h : WF db)
    (hc : create_silo db n = .ok db2) : WF db2 := by
  obtain ⟨hn, hdup, rfl⟩ := create_ok hc
  have hpos := h.nextSiloId_pos
  constructor
  · exact Nat.lt_succ_of_lt hpos
  · intro s hs
    rcases List.mem_append.1 hs with hs | hs
    · exact h.silo_id_ne_zero s hs
    · simp at hs
      subst hs
      simpa using Nat.pos_iff_ne_zero.mp hpos
  · intro s hs
    rcases List.mem_append.1 hs with hs | hs
    · exact h.balance_nonneg s hs
    · simp at hs; subst hs; simp
  · intro s hs c hc2
    rcases List.mem_append.1 hs with hs | hs
    · exact h.cereal_allowed s hs c hc2
    · simp at hs; subst hs; simp at hc2
  · intro s hs hb
    rcases List.mem_append.1 hs with hs | hs
    · exact h.stocked_locked s hs hb
    · simp at hs; subst hs; simp at hb
  · intro o ho
    rcases h.ops_ref o ho with ⟨s, hs, hid⟩
    exact ⟨s, List.mem_append.2 (Or.inl hs), hid⟩

theorem rename_WF {db : DB} {i : Nat} {n : String} {db2 : DB} (h : WF db)
    (hc : rename_silo db i n = .ok db2) : WF db2 := by
  obtain ⟨s, hn, hfind, hdup, rfl⟩ := rename_ok hc
  have hmem := findSilo_mem hfind
  have hsid := findSilo_id hfind
  have hid2 : (Silo.mk s.id (pyStrip n) s.cereal s.balance_kg s.created_at).id = i := hsid
  constructor
  · exact h.nextSiloId_pos
  · intro t ht
    rcases mem_updateSilo ht with rfl | ht
    · exact hsid ▸ h.silo_id_ne_zero s hmem
    · exact h.silo_id_ne_zero t ht
  · intro t ht
    rcases mem_updateSilo ht with rfl | ht
    · exact h.balance_nonneg s hmem
    · exact h.balance_nonneg t ht
  · intro t ht c hc2
    rcases mem_updateSilo ht with rfl | ht
    · exact h.cereal_allowed s hmem c hc2
    · exact h.cereal_allowed t ht c hc2
  · intro t ht hb
    rcases mem_updateSilo ht with rfl | ht
    · exact h.stocked_locked s hmem hb
    · exact h.stocked_locked t ht hb
  · intro o ho
    exact updateSilo_exists_id hid2 (h.ops_ref o ho)

theorem delete_WF {db : DB} {i : Nat} {db2 : DB} (h : WF db)
    (hc : delete_silo db i = .ok db2) : WF db2 := by
  obtain ⟨s, hfind, rfl⟩ := delete_ok hc
  constructor
  · exact h.nextSiloId_pos
  · intro t ht
    exact h.silo_id_ne_zero t (List.mem_of_mem_filter ht)
  · intro t ht
    exact h.balance_nonneg t (List.mem_of_mem_filter ht)
  · intro t ht c hc2
    exact h.cereal_allowed t (List.mem_of_mem_filter ht) c hc2
  · intro t ht hb
    exact h.stocked_locked t (List.mem_of_mem_filter ht) hb
  · intro o ho
    have homem := List.mem_of_mem_filter ho
    have hop : o.silo_id ≠ i := by
      have := List.of_mem_filter ho
      simpa using this
    rcases h.ops_ref o homem with ⟨t, ht, hid⟩
    refine ⟨t, List.mem_filter.2 ⟨ht, ?_⟩, hid⟩
    simp [hid, hop]

theorem cargar_WF {db : DB} {i : Nat} {amount : Int} {cereal : Option String}
    {db2 : DB} (h : WF db) (hc : cargar db i amount cereal = .ok db2) : WF db2 := by
  obtain ⟨s, s1, hamt, hfind, hbr, hmis, rfl⟩ := cargar_ok hc
  have hmem := findSilo_mem hfind
  have hsid := findSilo_id hfind
  have hs1id : s1.id = s.id := by
    rcases hbr with ⟨_, rfl⟩ | ⟨_, _, _, _, rfl⟩ <;> rfl
  have hs1bal : s1.balance_kg = s.balance_kg := by
    rcases hbr with ⟨_, rfl⟩ | ⟨_, _, _, _, rfl⟩ <;> rfl
  have hid2 : (Silo.mk s1.id s1.name s1.cereal (s1.balance_kg + amount) s1.created_at).id = i := by
    simpa [hs1id] using hsid
  constructor
  · exact h.nextSiloId_pos
  · intro t ht
    rcases mem_updateSilo ht with rfl | ht
    · simpa [hs1id] using h.silo_id_ne_zero s hmem
    · exact h.silo_id_ne_zero t ht
  · intro t ht
    rcases mem_updateSilo ht with rfl | ht
    · have := h.balance_nonneg s hmem
      simp only []
      rw [hs1bal]
      omega
    · exact h.balance_nonneg t ht
  · intro t ht c hc2
    rcases mem_updateSilo ht with rfl | ht
    · have hc3 : s1.cereal = some c := hc2
      rcases hbr with ⟨_, he⟩ | ⟨_, _, htr, hall, he⟩
      · exact h.cereal_allowed s hmem c (he ▸ hc3)
      · rw [he] at hc3
        simp only [] at hc3
        subst hc3
        simpa using hall
    · exact h.cereal_allowed t ht c hc2
  · intro t ht hpos
    rcases mem_updateSilo ht with rfl | ht
    · show s1.cereal ≠ none
      rcases hbr with ⟨hnf, he⟩ | ⟨_, _, htr, _, he⟩
      · rw [he]
        rcases Decidable.not_and_iff_or_not.1 hnf with hb | hcer
        · have hbpos : 0 < s.balance_kg :=
            lt_of_le_of_ne (h.balance_nonneg s hmem) (Ne.symm hb)
          exact h.stocked_locked s hmem hbpos
        · exact hcer
      · rw [he]
        show cereal ≠ none
        cases cereal with
        | none => simp [pyTruthy] at htr
        | some c => simp
    · exact h.stocked_locked t ht hpos
  · intro o ho
    rcases List.mem_append.1 ho with ho | ho
    · exact updateSilo_exists_id hid2 (h.ops_ref o ho)
    · simp at ho
      subst ho
      refine updateSilo_exists_id hid2 ?_
      exact ⟨s, hmem, by simp [hsid, hs1id]⟩

theorem descargar_WF {db : DB} {i : Nat} {amount : Int} {db2 : DB} (h : WF db)
    (hc : descargar db i amount = .ok db2) : WF db2 := by
  obtain ⟨s, hamt, hfind, hstock, rfl⟩ := descargar_ok hc
  have hmem := findSilo_mem hfind
  have hsid := findSilo_id hfind
  have hid2 : (Silo.mk s.id s.name s.cereal (s.balance_kg - amount) s.created_at).id = i := hsid
  constructor
  · exact h.nextSiloId_pos
  · intro t ht
    rcases mem_updateSilo ht with rfl | ht
    · exact hsid ▸ h.silo_id_ne_zero s hmem
    · exact h.silo_id_ne_zero t ht
  · intro t ht
    rcases mem_updateSilo ht with rfl | ht
    · simp only []
      omega
    · exact h.balance_nonneg t ht
  · intro t ht c hc2
    rcases mem_updateSilo ht with rfl | ht
    · exact h.cereal_allowed s hmem c hc2
    · exact h.cereal_allowed t ht c hc2
  · intro t ht hb
    rcases mem_updateSilo ht with rfl | ht
    · simp only [] at hb
      have hbpos : 0 < s.balance_kg := by omega
      exact h.stocked_locked s hmem hbpos
    · exact h.stocked_locked t ht hb
  · intro o ho
    rcases List.mem_append.1 ho with ho | ho
    · exact updateSilo_exists_id hid2 (h.ops_ref o ho)
    · simp at ho
      subst ho
      exact updateSilo_exists_id hid2 ⟨s, hmem, by simp [hsid]⟩

theorem step_WF {db : DB} (h : WF db) (r : Req) : WF (step db r) := by
  cases r with
  | create n =>
    cases hc : create_silo db n with
    | error e => simpa [step, hc] using h
    | ok db2 => simpa [step, hc] using create_WF h hc
  | rename i n =>
    cases hc : rename_silo db i n with
    | error e => simpa [step, hc] using h
    | ok db2 => simpa [step, hc] using rename_WF h hc
  | delete i =>
    cases hc : delete_silo db i with
    | error e => simpa [step, hc] using h
    | ok db2 => simpa [step, hc] using delete_WF h hc
  | load i a c =>
    cases hc : cargar db i a c with
    | error e => simpa [step, hc] using h
    | ok db2 => simpa [step, hc] using cargar_WF h hc
  | unload i a =>
    cases hc : descargar db i a with
    | error e => simpa [step, hc] using h
    | ok db2 => simpa [step, hc] using descargar_WF h hc

theorem WF_foldl {db : DB} (h : WF db) (rs : List Req) : WF (rs.foldl step db) := by
  induction rs generalizing db with
  | nil => exact h
  | cons r rs ih => exact ih (step_WF h r)

theorem WF_run (rs : List Req) : WF (run rs) :=
  WF_foldl WF_empty rs

theorem resumenEntry_ok {db : DB} {o : Operation} {s : Silo}
    (h0 : o.silo_id ≠ 0) (hfind : findSilo db o.silo_id = some s) :
    resumenEntry db o = .ok (entryOf db o) := by
  unfold resumenEntry entryOf
  simp [h0, hfind]

theorem buildEntries_ok {db : DB} {l : List Operation}
    (h : ∀ o ∈ l, o.silo_id ≠ 0 ∧ ∃ s, findSilo db o.silo_id = some s) :
    buildEntries db l = .ok (l.map (entryOf db)) := by
  induction l with
  | nil => rfl
  | cons o os ih =>
    obtain ⟨h0, s, hs⟩ := h o (by simp)
    rw [buildEntries, resumenEntry_ok h0 hs, ih (fun o2 ho2 => h o2 (by simp [ho2]))]
    rfl

theorem ops_ok_of_WF {db : DB} (h : WF db) :
    ∀ o ∈ db.ops, o.silo_id ≠ 0 ∧ ∃ s, findSilo db o.silo_id = some s := by
  intro o ho
  rcases h.ops_ref o ho with ⟨s, hs, hid⟩
  have h0 : o.silo_id ≠ 0 := hid ▸ h.silo_id_ne_zero s hs
  have hsome : (findSilo db o.silo_id).isSome := findSilo_isSome_of_mem hs hid
  rcases Option.isSome_iff_exists.1 hsome with ⟨t, ht⟩
  exact ⟨h0, t, ht⟩

theorem resumen_ok_of_WF {db : DB} (h : WF db) :
    resumen db = .ok ((db.ops.insertionSort opAfter).map (entryOf db)) := by
  unfold resumen
  apply buildEntries_ok
  intro o ho
  exact ops_ok_of_WF h o ((List.perm_insertionSort opAfter db.ops).mem_iff.1 ho)

theorem sorted_entries (db : DB) :
    List.Sorted entryAfter ((db.ops.insertionSort opAfter).map (entryOf db)) := by
  have hs := List.sorted_insertionSort opAfter db.ops
  exact List.Pairwise.map (entryOf db) (fun a b hab => hab) hs

/-- Claim C1: for every silo and every sequence of create/load/unload/
rename/delete operations, the silo balance_kg is a non-negative integer
after each operation; unload attempts whose amount exceeds the balance are
rejected rather than driving the balance negative. -/
theorem C1_balance_nonneg (rs : List Req) (s : Silo) (h : s ∈ (run rs).silos) :
    0 ≤ s.balance_kg :=
  (WF_run rs).balance_nonneg s h

theorem C1_witness : 0 ≤ (Silo.mk 1 "A" (some "Soja") 70 0).balance_kg :=
  C1_balance_nonneg
    [Req.create "A", Req.load 1 100 (some "Soja"), Req.unload 1 200, Req.unload 1 30]
    (Silo.mk 1 "A" (some "Soja") 70 0) (by decide)

/-- Claim C10: in every state reachable by any sequence of API
operations, a silo with positive balance_kg has a cereal assigned from the
allowed set; the balance can never become positive while the cereal is
unset. -/
theorem C10_stocked_has_cereal (rs : List Req) (s : Silo)
    (h : s ∈ (run rs).silos) (hpos : 0 < s.balance_kg) :
    ∃ c, s.cereal = some c ∧ c ∈ ALLOWED_CEREALES := by
  have hWF := WF_run rs
  have hne := hWF.stocked_locked s h hpos
  cases hcer : s.cereal with
  | none => exact absurd hcer hne
  | some c => exact ⟨c, rfl, hWF.cereal_allowed s h c hcer⟩

theorem C10_witness :
    ∃ c, (Silo.mk 1 "A" (some "Soja") 100 0).cereal = some c ∧ c ∈ ALLOWED_CEREALES :=
  C10_stocked_has_cereal [Req.create "A", Req.load 1 100 (some "Soja")]
    (Silo.mk 1 "A" (some "Soja") 100 0) (by decide) (by decide)

/-- Claim C2: for every reachable state and every silo whose cereal has
been set, a load supplying a different non-empty cereal value fails with
CerealMismatch and leaves the whole state (hence the silo balance and
cereal) unchanged, regardless of the current balance - in particular also
when unloads have brought the balance back to zero, since the cereal is
never cleared.  The amount is positive, as the non-positive-amount check
runs first and reports InvalidInput. -/
theorem C2_cereal_lock (rs : List Req) (i : Nat) (s : Silo) (c c2 : String)
    (amount : Int)
    (hfind : findSilo (run rs) i = some s) (hcer : s.cereal = some c)
    (hamt : 0 < amount) (hne : c2 ≠ "") (hdiff : c2 ≠ c) :
    cargar (run rs) i amount (some c2) = .error .CerealMismatch ∧
    step (run rs) (.load i amount (some c2)) = run rs := by
  have hWF := WF_run rs
  have hmem := findSilo_mem hfind
  have hcin := hWF.cereal_allowed s hmem c hcer
  have hc_ne : c ≠ "" := by
    simp [ALLOWED_CEREALES] at hcin
    rcases hcin with rfl | rfl | rfl | rfl <;> decide
  have hres : cargar (run rs) i amount (some c2) = .error .CerealMismatch := by
    unfold cargar
    rw [if_neg (by omega), hfind]
    dsimp only []
    rw [if_neg (by simp [hcer])]
    dsimp only []
    rw [if_pos ⟨by simp [pyTruthy, hcer, hc_ne], by simp [pyTruthy, hne],
      by simp [hcer]; exact fun hh => hdiff hh⟩]
  exact ⟨hres, by simp [step, hres, Except.toOption]⟩

theorem C2_witness :
    cargar (run [Req.create "A", Req.load 1 100 (some "Soja"), Req.unload 1 100])
        1 20 (some "Maiz") = .error .CerealMismatch ∧
    step (run [Req.create "A", Req.load 1 100 (some "Soja"), Req.unload 1 100])
        (.load 1 20 (some "Maiz")) =
      run [Req.create "A", Req.load 1 100 (some "Soja"), Req.unload 1 100] :=
  C2_cereal_lock [Req.create "A", Req.load 1 100 (some "Soja"), Req.unload 1 100]
    1 (Silo.mk 1 "A" (some "Soja") 0 0) "Soja" "Maiz" 20
    (by decide) rfl (by decide) (by decide) (by decide)

/-- Claim C4, counterexample: a load supplying the invalid cereal
Cebada to a silo whose cereal is already set (reachable state: silo A
holds 100 kg of Soja) fails with CerealMismatch, not with InvalidInput as
the claim demands for every load with an invalid cereal value. -/
theorem C4_counterexample :
    "Cebada" ∉ ALLOWED_CEREALES ∧
    cargar (run [Req.create "A", Req.load 1 100 (some "Soja")]) 1 10 (some "Cebada") =
      .error .CerealMismatch ∧
    cargar (run [Req.create "A", Req.load 1 100 (some "Soja")]) 1 10 (some "Cebada") ≠
      .error .InvalidInput := by
  decide

/-- Claim C4 as amended: every load with positive amount into a fresh
silo (zero balance, unset cereal) that supplies a cereal value outside the
enumerated valid set, or omits the cereal argument, fails with
InvalidInput and leaves the state unchanged. -/
theorem C4_fresh_invalid_cereal (db : DB) (i : Nat) (s : Silo) (amount : Int)
    (cereal : Option String)
    (hfind : findSilo db i = some s) (hb : s.balance_kg = 0) (hc : s.cereal = none)
    (hamt : 0 < amount) (hbad : ∀ c, cereal = some c → c ∉ ALLOWED_CEREALES) :
    cargar db i amount cereal = .error .InvalidInput ∧
    step db (.load i amount cereal) = db := by
  have hcond : ¬ pyTruthy cereal = true ∨ cereal.getD "" ∉ ALLOWED_CEREALES := by
    cases cereal with
    | none => exact Or.inl (by simp [pyTruthy])
    | some cc => exact Or.inr (by simpa using hbad cc rfl)
  have hres : cargar db i amount cereal = .error .InvalidInput := by
    unfold cargar
    rw [if_neg (by omega), hfind]
    dsimp only []
    rw [if_pos ⟨hb, hc⟩, if_pos hcond]
  exact ⟨hres, by simp [step, hres, Except.toOption]⟩

theorem C4_witness :
    (cargar (run [Req.create "A"]) 1 50 (some "Cebada") = .error .InvalidInput ∧
     step (run [Req.create "A"]) (.load 1 50 (some "Cebada")) = run [Req.create "A"]) ∧
    (cargar (run [Req.create "A"]) 1 50 none = .error .InvalidInput ∧
     step (run [Req.create "A"]) (.load 1 50 none) = run [Req.create "A"]) :=
  ⟨C4_fresh_invalid_cereal (run [Req.create "A"]) 1 (Silo.mk 1 "A" none 0 0) 50
      (some "Cebada") (by decide) rfl rfl (by decide) (by decide),
   C4_fresh_invalid_cereal (run [Req.create "A"]) 1 (Silo.mk 1 "A" none 0 0) 50
      none (by decide) rfl rfl (by decide) (by decide)⟩

/-- Claim C5: unload fails with InvalidInput for non-positive amounts
before the existence check (for any state and id), with NotFound for an
absent id, and with InsufficientStock whenever the amount exceeds the
balance, in which case the state - balance and operation ledger - is
unchanged. -/
theorem C5_descargar_errors (db : DB) (i : Nat) (amount : Int) :
    (amount ≤ 0 → descargar db i amount = .error .InvalidInput) ∧
    (0 < amount → findSilo db i = none → descargar db i amount = .error .NotFound) ∧
    (∀ s, 0 < amount → findSilo db i = some s → s.balance_kg < amount →
      descargar db i amount = .error .InsufficientStock ∧
      step db (.unload i amount) = db) := by
  refine ⟨?_, ?_, ?_⟩
  · intro ha
    unfold descargar
    rw [if_pos ha]
  · intro ha hnone
    unfold descargar
    rw [if_neg (by omega), hnone]
  · intro s ha hfind hlt
    have hres : descargar db i amount = .error .InsufficientStock := by
      unfold descargar
      rw [if_neg (by omega), hfind]
      dsimp only []
      rw [if_pos (by omega)]
    exact ⟨hres, by simp [step, hres, Except.toOption]⟩

theorem C5_witness :
    descargar (run [Req.create "B"]) 1 0 = .error .InvalidInput ∧
    descargar (run [Req.create "B"]) 2 5 = .error .NotFound ∧
    (descargar (run [Req.create "B"]) 1 10 = .error .InsufficientStock ∧
     step (run [Req.create "B"]) (.unload 1 10) = run [Req.create "B"]) :=
  ⟨(C5_descargar_errors (run [Req.create "B"]) 1 0).1 (by decide),
   (C5_descargar_errors (run [Req.create "B"]) 2 5).2.1 (by decide) (by decide),
   (C5_descargar_errors (run [Req.create "B"]) 1 10).2.2 (Silo.mk 1 "B" none 0 0)
     (by decide) (by decide) (by decide)⟩

/-- Claim C3, exhibiting the code bug: on a store with an operation row
whose silo row no longer exists, resumen raises (AttributeError on line
212 of app.py, because Silo.get returns None and balance_kg is read from
it) instead of reporting a null balance and succeeding; the silo name
lookup alone is defensively None as the claim describes. -/
theorem C3_dangling_silo_raises :
    resumen danglingDB = .error () ∧
    (danglingDB.ops.map fun o => (findSilo danglingDB o.silo_id).map (fun s => s.name)) =
      [none] := by
  decide

/-- Claim C6: every successful load/unload updates the silo balance by
the requested amount and appends exactly one operation record carrying
that call type and amount, committed as one unit, and every failed
load/unload leaves the whole state - silo table and operation ledger -
unchanged. -/
theorem C6_atomic (db : DB) (i : Nat) (amount : Int) (cereal : Option String) :
    (∀ db2, cargar db i amount cereal = .ok db2 →
      ∃ s s2, findSilo db i = some s ∧
        db2.ops = db.ops ++ [{ id := db.nextOpId, silo_id := i, type := "CARGA",
                               amount := amount, created_at := db.clock }] ∧
        findSilo db2 i = some s2 ∧ s2.balance_kg = s.balance_kg + amount) ∧
    (∀ db2, descargar db i amount = .ok db2 →
      ∃ s s2, findSilo db i = some s ∧
        db2.ops = db.ops ++ [{ id := db.nextOpId, silo_id := i, type := "DESCARGA",
                               amount := amount, created_at := db.clock }] ∧
        findSilo db2 i = some s2 ∧ s2.balance_kg = s.balance_kg - amount) ∧
    (∀ e, cargar db i amount cereal = .error e → step db (.load i amount cereal) = db) ∧
    (∀ e, descargar db i amount = .error e → step db (.unload i amount) = db) := by
  refine ⟨?_, ?_, ?_, ?_⟩
  · intro db2 hok
    obtain ⟨s, s1, hamt, hfind, hbr, hmis, rfl⟩ := cargar_ok hok
    have hsid := findSilo_id hfind
    have hs1id : s1.id = s.id := by
      rcases hbr with ⟨_, rfl⟩ | ⟨_, _, _, _, rfl⟩ <;> rfl
    have hs1bal : s1.balance_kg = s.balance_kg := by
      rcases hbr with ⟨_, rfl⟩ | ⟨_, _, _, _, rfl⟩ <;> rfl
    have hi : s1.id = i := hs1id.trans hsid
    have hsome : (db.silos.find? (fun t => t.id = i)).isSome := by
      unfold findSilo at hfind
      rw [hfind]
      rfl
    refine ⟨s, Silo.mk s1.id s1.name s1.cereal (s1.balance_kg + amount) s1.created_at,
      hfind, ?_, ?_, ?_⟩
    · rw [hi]
    · exact find_updateSilo_self hi hsome
    · show s1.balance_kg + amount = s.balance_kg + amount
      rw [hs1bal]
  · intro db2 hok
    obtain ⟨s, hamt, hfind, hstock, rfl⟩ := descargar_ok hok
    have hsid := findSilo_id hfind
    have hsome : (db.silos.find? (fun t => t.id = i)).isSome := by
      unfold findSilo at hfind
      rw [hfind]
      rfl
    refine ⟨s, Silo.mk s.id s.name s.cereal (s.balance_kg - amount) s.created_at,
      hfind, ?_, ?_, rfl⟩
    · rw [hsid]
    · exact find_updateSilo_self hsid hsome
  · intro e he
    simp [step, he, Except.toOption]
  · intro e he
    simp [step, he, Except.toOption]

theorem C6_witness :
    (∃ s s2, findSilo (run [Req.create "A"]) 1 = some s ∧
      (run [Req.create "A", Req.load 1 100 (some "Soja")]).ops =
        (run [Req.create "A"]).ops ++
          [{ id := 1, silo_id := 1, type := "CARGA", amount := 100, created_at := 1 }] ∧
      findSilo (run [Req.create "A", Req.load 1 100 (some "Soja")]) 1 = some s2 ∧
      s2.balance_kg = s.balance_kg + 100) ∧
    step (run [Req.create "A"]) (.unload 1 5) = run [Req.create "A"] :=
  ⟨(C6_atomic (run [Req.create "A"]) 1 100 (some "Soja")).1
      (run [Req.create "A", Req.load 1 100 (some "Soja")]) (by decide),
   (C6_atomic (run [Req.create "A"]) 1 5 none).2.2.2 .InsufficientStock (by decide)⟩

/-- Claim C7: on every reachable state, resumen succeeds and returns
all operations ordered by creation time descending with ties broken by id
descending, and each entry carries the referencing silo current name and
current balance at summary time (a point-in-time join, not the historical
balance). -/
theorem C7_resumen (rs : List Req) :
    ∃ entries, resumen (run rs) = .ok entries ∧
      List.Sorted entryAfter entries ∧
      entries.Perm ((run rs).ops.map (entryOf (run rs))) ∧
      ∀ e ∈ entries, ∃ s, findSilo (run rs) e.silo_id = some s ∧
        e.silo_name = some s.name ∧ e.balance_kg_post = some s.balance_kg := by
  have hWF := WF_run rs
  refine ⟨_, resumen_ok_of_WF hWF, sorted_entries (run rs),
    (List.perm_insertionSort opAfter (run rs).ops).map (entryOf (run rs)), ?_⟩
  intro e he
  rcases List.mem_map.1 he with ⟨o, ho, rfl⟩
  have ho2 : o ∈ (run rs).ops :=
    (List.perm_insertionSort opAfter (run rs).ops).mem_iff.1 ho
  obtain ⟨h0, s, hs⟩ := ops_ok_of_WF hWF o ho2
  exact ⟨s, hs, by simp [entryOf, hs], by simp [entryOf, hs]⟩

/-- Claim C8: delete on an existing silo succeeds unconditionally
(regardless of balance or cereal), removes the silo and all of its
operation records, and a subsequent resumen succeeds with no entry for
that silo; delete of an absent id fails with NotFound. -/
theorem C8_delete (rs : List Req) (i : Nat) :
    (findSilo (run rs) i = none → delete_silo (run rs) i = .error .NotFound) ∧
    (∀ s, findSilo (run rs) i = some s →
      ∃ db2, delete_silo (run rs) i = .ok db2 ∧
        findSilo db2 i = none ∧
        (∀ o ∈ db2.ops, o.silo_id ≠ i) ∧
        ∃ entries, resumen db2 = .ok entries ∧ ∀ e ∈ entries, e.silo_id ≠ i) := by
  constructor
  · intro hnone
    unfold delete_silo
    rw [hnone]
  · intro s hfind
    have hdel : delete_silo (run rs) i =
        .ok { run rs with silos := (run rs).silos.filter (fun t => t.id ≠ i),
                          ops := (run rs).ops.filter (fun o => o.silo_id ≠ i),
                          clock := (run rs).clock + 1 } := by
      unfold delete_silo
      rw [hfind]
    have hWF2 := delete_WF (WF_run rs) hdel
    refine ⟨_, hdel, ?_, ?_, ?_⟩
    · apply List.find?_eq_none.2
      intro t ht
      have := List.of_mem_filter ht
      simpa using this
    · intro o ho
      have := List.of_mem_filter ho
      simpa using this
    · refine ⟨_, resumen_ok_of_WF hWF2, ?_⟩
      intro e he
      rcases List.mem_map.1 he with ⟨o, ho, rfl⟩
      have ho2 := (List.perm_insertionSort opAfter _).mem_iff.1 ho
      have := List.of_mem_filter ho2
      simpa [entryOf] using this

theorem C8_witness :
    ∃ db2, delete_silo (run [Req.create "A", Req.load 1 100 (some "Soja")]) 1 = .ok db2 ∧
      findSilo db2 1 = none ∧
      (∀ o ∈ db2.ops, o.silo_id ≠ 1) ∧
      ∃ entries, resumen db2 = .ok entries ∧ ∀ e ∈ entries, e.silo_id ≠ 1 :=
  (C8_delete [Req.create "A", Req.load 1 100 (some "Soja")] 1).2
    (Silo.mk 1 "A" (some "Soja") 100 0) (by decide)

/-- Claim C9: rename changes only the silo name - id, cereal,
balance_kg, created_at and the operation records are unchanged, and other
silos are untouched; it fails with InvalidInput when the trimmed new name
is empty, NotFound when the id is absent, and DuplicateName when the new
name collides with another silo; after a successful rename, summary
entries for the silo operations display the new name. -/
theorem C9_rename (rs : List Req) (i : Nat) (rawName : String) :
    (pyStrip rawName = "" → rename_silo (run rs) i rawName = .error .InvalidInput) ∧
    (pyStrip rawName ≠ "" → findSilo (run rs) i = none →
      rename_silo (run rs) i rawName = .error .NotFound) ∧
    (∀ s, pyStrip rawName ≠ "" → findSilo (run rs) i = some s →
      (∃ t ∈ (run rs).silos, t.name = pyStrip rawName ∧ t.id ≠ i) →
      rename_silo (run rs) i rawName = .error .DuplicateName) ∧
    (∀ s, pyStrip rawName ≠ "" → findSilo (run rs) i = some s →
      (¬ ∃ t ∈ (run rs).silos, t.name = pyStrip rawName ∧ t.id ≠ i) →
      ∃ db2, rename_silo (run rs) i rawName = .ok db2 ∧
        findSilo db2 i = some { s with name := pyStrip rawName } ∧
        db2.ops = (run rs).ops ∧
        (∀ j, j ≠ i → findSilo db2 j = findSilo (run rs) j) ∧
        ∃ entries, resumen db2 = .ok entries ∧
          ∀ e ∈ entries, e.silo_id = i → e.silo_name = some (pyStrip rawName)) := by
  refine ⟨?_, ?_, ?_, ?_⟩
  · intro hempty
    unfold rename_silo
    rw [if_pos hempty]
  · intro hne hnone
    unfold rename_silo
    rw [if_neg hne, hnone]
  · intro s hne hfind hdup
    have hsid := findSilo_id hfind
    unfold rename_silo
    rw [if_neg hne, hfind]
    dsimp only []
    rw [if_pos (by rw [hsid]; exact hdup)]
  · intro s hne hfind hdup
    have hsid := findSilo_id hfind
    have hrid : (Silo.mk s.id (pyStrip rawName) s.cereal s.balance_kg s.created_at).id = i :=
      hsid
    have hsome : ((run rs).silos.find? (fun t => t.id = i)).isSome := by
      unfold findSilo at hfind
      rw [hfind]
      rfl
    have hren : rename_silo (run rs) i rawName =
        .ok { run rs with
          silos := updateSilo (run rs).silos i
            (Silo.mk s.id (pyStrip rawName) s.cereal s.balance_kg s.created_at),
          clock := (run rs).clock + 1 } := by
      unfold rename_silo
      rw [if_neg hne, hfind]
      dsimp only []
      rw [if_neg (by rw [hsid]; exact hdup)]
    have hWF2 := rename_WF (WF_run rs) hren
    have hfself : findSilo { run rs with
          silos := updateSilo (run rs).silos i
            (Silo.mk s.id (pyStrip rawName) s.cereal s.balance_kg s.created_at),
          clock := (run rs).clock + 1 } i =
        some (Silo.mk s.id (pyStrip rawName) s.cereal s.balance_kg s.created_at) :=
      find_updateSilo_self hrid hsome
    refine ⟨_, hren, hfself, rfl, ?_, ?_⟩
    · intro j hj
      exact find_updateSilo_ne hrid hj
    · refine ⟨_, resumen_ok_of_WF hWF2, ?_⟩
      intro e he heid
      rcases List.mem_map.1 he with ⟨o, ho, rfl⟩
      have hoid : o.silo_id = i := heid
      show ((findSilo _ o.silo_id).map (fun t => t.name)) = some (pyStrip rawName)
      rw [hoid, hfself]
      rfl

theorem C9_witness :
    (rename_silo (run [Req.create "A", Req.create "B", Req.load 1 100 (some "Soja")])
        1 "B" = .error .DuplicateName) ∧
    (∃ db2,
      rename_silo (run [Req.create "A", Req.create "B", Req.load 1 100 (some "Soja")])
          1 "A2" = .ok db2 ∧
      findSilo db2 1 =
        some { Silo.mk 1 "A" (some "Soja") 100 0 with name := pyStrip "A2" } ∧
      db2.ops = (run [Req.create "A", Req.create "B", Req.load 1 100 (some "Soja")]).ops ∧
      (∀ j, j ≠ 1 → findSilo db2 j =
        findSilo (run [Req.create "A", Req.create "B", Req.load 1 100 (some "Soja")]) j) ∧
      ∃ entries, resumen db2 = .ok entries ∧
        ∀ e ∈ entries, e.silo_id = 1 → e.silo_name = some (pyStrip "A2")) :=
  ⟨(C9_rename [Req.create "A", Req.create "B", Req.load 1 100 (some "Soja")] 1 "B").2.2.1
      (Silo.mk 1 "A" (some "Soja") 100 0) (by decide) (by decide) (by decide),
   (C9_rename [Req.create "A", Req.create "B", Req.load 1 100 (some "Soja")] 1 "A2").2.2.2
      (Silo.mk 1 "A" (some "Soja") 100 0) (by decide) (by decide) (by decide)⟩
